import Mathlib

/-!
Verification of the GeoPose conversion core (TypeScript sources) against its
natural-language specification.  The arithmetic of the source is embedded over
the exact real numbers: every `number` becomes `ℝ`, `Math.sin` becomes
`Real.sin`, `Math.atan2 y x` becomes the argument of the complex number
`x + y·i`.  Division is exact real division, which returns 0 on a zero
divisor where IEEE doubles return an infinity or NaN; the embedding is
therefore faithful only on inputs where the source divides by a quantity
that is not exactly zero.  Data records of the source become Lean structures
with the same field names.
-/

namespace GeoPoseTS

/-- WGS84 quaternion record from types.ts: components x, y, z, w. -/
@[ext]
structure Quaternion where
  x : ℝ
  y : ℝ
  z : ℝ
  w : ℝ


/-- Geodetic position record: latitude/longitude in degrees, height in meters. -/
@[ext]
structure LLH where
  lat : ℝ
  lon : ℝ
  h : ℝ


/-- Earth-centered Earth-fixed Cartesian point, meters. -/
@[ext]
structure ECEF where
  x : ℝ
  y : ℝ
  z : ℝ


/-- Local East-North-Up tangent-plane offset, meters. -/
@[ext]
structure ENU where
  east : ℝ
  north : ℝ
  up : ℝ


/-- GeoPose in Basic-Quaternion form. -/
@[ext]
structure GeoPoseBQ where
  position : LLH
  quaternion : Quaternion


/-- Yaw/pitch/roll angles in degrees. -/
@[ext]
structure YPRAngles where
  yaw : ℝ
  pitch : ℝ
  roll : ℝ


/-- GeoPose in Basic-YPR form. -/
@[ext]
structure GeoPoseBYPR where
  position : LLH
  angles : YPRAngles


/-- Result record of geoPoseToECEF: ECEF position plus ECEF-relative orientation. -/
@[ext]
structure ECEFPose where
  position : ECEF
  orientation : Quaternion


/-- Result record of geoPoseToLocalENU: ENU position plus origin-frame orientation. -/
@[ext]
structure ENUPose where
  position : ENU
  orientation : Quaternion


/-- WGS84 semi-major axis, from the constants object in types.ts. -/
def WGS84.a : ℝ := 6378137.0

/-- WGS84 first eccentricity squared, from the constants object in types.ts. -/
def WGS84.e2 : ℝ := 0.00669437999014

/-- degToRad from conversions.ts. -/
noncomputable def degToRad (deg : ℝ) : ℝ := deg * (Real.pi / 180)

/-- radToDeg from conversions.ts. -/
noncomputable def radToDeg (rad : ℝ) : ℝ := rad * (180 / Real.pi)

/-- JavaScript Math.atan2 y x, embedded as the principal argument of x + y·i. -/
noncomputable def atan2 (y x : ℝ) : ℝ := Complex.arg ⟨x, y⟩

/-- multiplyQuaternions from conversions.ts (Hamilton product, identical copies
in local.ts and GeoPoseBasic.ts). -/
def multiplyQuaternions (a b : Quaternion) : Quaternion :=
  { x := a.w * b.x + a.x * b.w + a.y * b.z - a.z * b.y
    y := a.w * b.y - a.x * b.z + a.y * b.w + a.z * b.x
    z := a.w * b.z + a.x * b.y - a.y * b.x + a.z * b.w
    w := a.w * b.w - a.x * b.x - a.y * b.y - a.z * b.z }

/-- conjugateQuaternion from local.ts: negates the vector part. -/
def conjugateQuaternion (q : Quaternion) : Quaternion :=
  { x := -q.x, y := -q.y, z := -q.z, w := q.w }

/-- Componentwise negation of a quaternion; q and -q encode the same rotation. -/
def quatNeg (q : Quaternion) : Quaternion :=
  { x := -q.x, y := -q.y, z := -q.z, w := -q.w }

/-- Plain 3-vector used to express the action of a quaternion as a rotation. -/
@[ext]
structure Vec3 where
  x : ℝ
  y : ℝ
  z : ℝ


/-- Action of a quaternion on a vector by the sandwich q · v · conj q.  For a
unit quaternion this is the rotation it encodes. -/
def rotateByQuaternion (q : Quaternion) (v : Vec3) : Vec3 :=
  let p : Quaternion := { x := v.x, y := v.y, z := v.z, w := 0 }
  let r := multiplyQuaternions (multiplyQuaternions q p) (conjugateQuaternion q)
  { x := r.x, y := r.y, z := r.z }

/-- identityQuaternion from GeoPoseBasic.ts. -/
def identityQuaternion : Quaternion := { x := 0, y := 0, z := 0, w := 1 }

/-- Magnitude of a quaternion as computed in normalizeQuaternion. -/
noncomputable def quatMag (q : Quaternion) : ℝ :=
  Real.sqrt (q.x * q.x + q.y * q.y + q.z * q.z + q.w * q.w)

/-- normalizeQuaternion from GeoPoseBasic.ts: divide by the magnitude, or
return the identity quaternion when the magnitude is exactly zero. -/
noncomputable def normalizeQuaternion (q : Quaternion) : Quaternion :=
  let mag := Real.sqrt (q.x * q.x + q.y * q.y + q.z * q.z + q.w * q.w)
  if mag = 0 then identityQuaternion
  else { x := q.x / mag, y := q.y / mag, z := q.z / mag, w := q.w / mag }

/-- quaternionToYPR from conversions.ts (Z-Y-X intrinsic convention, degrees),
with the gimbal-lock guard on the asin argument. -/
noncomputable def quaternionToYPR (geoPose : GeoPoseBQ) : GeoPoseBYPR :=
  let q := geoPose.quaternion
  let sinr_cosp := 2 * (q.w * q.x + q.y * q.z)
  let cosr_cosp := 1 - 2 * (q.x * q.x + q.y * q.y)
  let roll := atan2 sinr_cosp cosr_cosp
  let sinp := 2 * (q.w * q.y - q.z * q.x)
  let pitch := if 1 ≤ |sinp| then Real.sign sinp * (Real.pi / 2) else Real.arcsin sinp
  let siny_cosp := 2 * (q.w * q.z + q.x * q.y)
  let cosy_cosp := 1 - 2 * (q.y * q.y + q.z * q.z)
  let yaw := atan2 siny_cosp cosy_cosp
  { position := geoPose.position
    angles := { yaw := radToDeg yaw, pitch := radToDeg pitch, roll := radToDeg roll } }

/-- yprToQuaternion from conversions.ts (Z-Y-X intrinsic, half-angle products). -/
noncomputable def yprToQuaternion (geoPose : GeoPoseBYPR) : GeoPoseBQ :=
  let yaw := degToRad geoPose.angles.yaw
  let pitch := degToRad geoPose.angles.pitch
  let roll := degToRad geoPose.angles.roll
  let cy := Real.cos (yaw * 0.5)
  let sy := Real.sin (yaw * 0.5)
  let cp := Real.cos (pitch * 0.5)
  let sp := Real.sin (pitch * 0.5)
  let cr := Real.cos (roll * 0.5)
  let sr := Real.sin (roll * 0.5)
  { position := geoPose.position
    quaternion :=
      { w := cr * cp * cy + sr * sp * sy
        x := sr * cp * cy - cr * sp * sy
        y := cr * sp * cy + sr * cp * sy
        z := cr * cp * sy - sr * sp * cy } }

/-- matrixToQuaternion from conversions.ts (and its identical copy in local.ts):
Shepperd-style trace/diagonal branch selection. -/
noncomputable def matrixToQuaternion
    (m00 m01 m02 m10 m11 m12 m20 m21 m22 : ℝ) : Quaternion :=
  let trace := m00 + m11 + m22
  if 0 < trace then
    let s := 0.5 / Real.sqrt (trace + 1.0)
    { w := 0.25 / s, x := (m21 - m12) * s, y := (m02 - m20) * s, z := (m10 - m01) * s }
  else if m00 > m11 ∧ m00 > m22 then
    let s := 2.0 * Real.sqrt (1.0 + m00 - m11 - m22)
    { w := (m21 - m12) / s, x := 0.25 * s, y := (m01 + m10) / s, z := (m02 + m20) / s }
  else if m11 > m22 then
    let s := 2.0 * Real.sqrt (1.0 + m11 - m00 - m22)
    { w := (m02 - m20) / s, x := (m01 + m10) / s, y := 0.25 * s, z := (m12 + m21) / s }
  else
    let s := 2.0 * Real.sqrt (1.0 + m22 - m00 - m11)
    { w := (m10 - m01) / s, x := (m02 + m20) / s, y := (m12 + m21) / s, z := 0.25 * s }

/-- getEnuToEcefRotation from conversions.ts (lat/lon in radians): quaternion of
the ENU→ECEF rotation matrix whose columns are East, North, Up. -/
noncomputable def getEnuToEcefRotation (lat lon : ℝ) : Quaternion :=
  let cl := Real.cos lat
  let sl := Real.sin lat
  let cL := Real.cos lon
  let sL := Real.sin lon
  matrixToQuaternion (-sL) (-sl * cL) (cl * cL) cL (-sl * sL) (cl * sL) 0 cl sl

/-- getEcefToEnuRotation from conversions.ts: the transposed matrix reduced the
same way. -/
noncomputable def getEcefToEnuRotation (lat lon : ℝ) : Quaternion :=
  let cl := Real.cos lat
  let sl := Real.sin lat
  let cL := Real.cos lon
  let sL := Real.sin lon
  matrixToQuaternion (-sL) cL 0 (-sl * cL) (-sl * sL) cl (cl * cL) (cl * sL) sl

/-- geoPoseToECEF from conversions.ts: closed-form WGS84 forward transform plus
orientation re-basing by the ENU→ECEF rotation. -/
noncomputable def geoPoseToECEF (geoPose : GeoPoseBQ) : ECEFPose :=
  let lat := degToRad geoPose.position.lat
  let lon := degToRad geoPose.position.lon
  let h := geoPose.position.h
  let sinLat := Real.sin lat
  let cosLat := Real.cos lat
  let sinLon := Real.sin lon
  let cosLon := Real.cos lon
  let N := WGS84.a / Real.sqrt (1 - WGS84.e2 * sinLat * sinLat)
  { position :=
      { x := (N + h) * cosLat * cosLon
        y := (N + h) * cosLat * sinLon
        z := (N * (1 - WGS84.e2) + h) * sinLat }
    orientation := multiplyQuaternions (getEnuToEcefRotation lat lon) geoPose.quaternion }

/-- One pass of the refinement loop body in ecefToGeoPose: state is the pair
(phi, h); N is recomputed, then h, then phi, exactly as in the source.  Note
that p / cos(phi) uses real division, which is 0 at 0/0 where IEEE doubles
give NaN; the two semantics can differ only on the measure-zero set where p
and cos(phi) are both exactly 0 (the exact poles of the exact-real transform),
a state double-precision evaluation of the source never reaches. -/
noncomputable def ecefStep (z p : ℝ) (st : ℝ × ℝ) : ℝ × ℝ :=
  let sinPhi := Real.sin st.1
  let N := WGS84.a / Real.sqrt (1 - WGS84.e2 * sinPhi * sinPhi)
  let h := p / Real.cos st.1 - N
  let phi := atan2 z (p * (1 - WGS84.e2 * (N / (N + h))))
  (phi, h)

/-- The for-loop of ecefToGeoPose, n passes of ecefStep. -/
noncomputable def ecefIterate (z p : ℝ) : ℕ → ℝ × ℝ → ℝ × ℝ
  | 0, st => st
  | n + 1, st => ecefIterate z p n (ecefStep z p st)

/-- Final (phi, h) state recovered by ecefToGeoPose from an ECEF point: the
initial guesses of the source followed by its five loop passes. -/
noncomputable def ecefRecoveredState (ecef : ECEF) : ℝ × ℝ :=
  let p := Real.sqrt (ecef.x * ecef.x + ecef.y * ecef.y)
  ecefIterate ecef.z p 5 (atan2 ecef.z (p * (1 - WGS84.e2)), 0)

/-- ecefToGeoPose from conversions.ts: iterative WGS84 inverse transform plus
orientation re-basing by the ECEF→ENU rotation at the recovered point. -/
noncomputable def ecefToGeoPose (ecef : ECEF) (orientation : Quaternion) : GeoPoseBQ :=
  let lam := atan2 ecef.y ecef.x
  let st := ecefRecoveredState ecef
  { position := { lat := radToDeg st.1, lon := radToDeg lam, h := st.2 }
    quaternion := multiplyQuaternions (getEcefToEnuRotation st.1 lam) orientation }

/-- Rotated-and-offset target ECEF point computed inside localENUToGeoPose:
origin ECEF plus the ENU vector rotated by the origin's ENU→ECEF matrix. -/
noncomputable def localENUTargetECEF (enu : ENU) (origin : LLH) : ECEF :=
  let originEcef := geoPoseToECEF { position := origin, quaternion := identityQuaternion }
  let latRad := origin.lat * Real.pi / 180
  let lonRad := origin.lon * Real.pi / 180
  let cl := Real.cos latRad
  let sl := Real.sin latRad
  let cL := Real.cos lonRad
  let sL := Real.sin lonRad
  let dx := -sL * enu.east - sl * cL * enu.north + cl * cL * enu.up
  let dy := cL * enu.east - sl * sL * enu.north + cl * sL * enu.up
  let dz := cl * enu.north + sl * enu.up
  { x := originEcef.position.x + dx
    y := originEcef.position.y + dy
    z := originEcef.position.z + dz }

/-- localENUToGeoPose from local.ts: rotate the ENU delta into ECEF, add the
origin's ECEF position, re-base the orientation via the origin's ENU→ECEF
quaternion, and convert back through ecefToGeoPose. -/
noncomputable def localENUToGeoPose (enu : ENU) (orientation : Quaternion) (origin : LLH) :
    GeoPoseBQ :=
  let latRad := origin.lat * Real.pi / 180
  let lonRad := origin.lon * Real.pi / 180
  let originEnuToEcef := getEnuToEcefRotation latRad lonRad
  let targetToEcef := multiplyQuaternions originEnuToEcef orientation
  ecefToGeoPose (localENUTargetECEF enu origin) targetToEcef

/-- geoPoseToLocalENU from local.ts: difference the ECEF positions, rotate the
delta into the origin's ENU frame, and re-base the orientation by the conjugate
of the origin's ENU→ECEF quaternion. -/
noncomputable def geoPoseToLocalENU (geoPose : GeoPoseBQ) (origin : LLH) : ENUPose :=
  let targetEcef := geoPoseToECEF geoPose
  let originEcef := geoPoseToECEF { position := origin, quaternion := identityQuaternion }
  let dx := targetEcef.position.x - originEcef.position.x
  let dy := targetEcef.position.y - originEcef.position.y
  let dz := targetEcef.position.z - originEcef.position.z
  let latRad := origin.lat * Real.pi / 180
  let lonRad := origin.lon * Real.pi / 180
  let cl := Real.cos latRad
  let sl := Real.sin latRad
  let cL := Real.cos lonRad
  let sL := Real.sin lonRad
  let east := -sL * dx + cL * dy
  let north := -sl * cL * dx - sl * sL * dy + cl * dz
  let up := cl * cL * dx + cl * sL * dy + sl * dz
  let originEnuToEcef := getEnuToEcefRotation latRad lonRad
  let ecefToOriginEnu := conjugateQuaternion originEnuToEcef
  { position := { east := east, north := north, up := up }
    orientation := multiplyQuaternions ecefToOriginEnu targetEcef.orientation }

/-- translateGeoPose from local.ts: convert back from local ENU using the
pose's own position as origin. -/
noncomputable def translateGeoPose (geoPose : GeoPoseBQ) (translation : ENU) : GeoPoseBQ :=
  localENUToGeoPose translation geoPose.quaternion geoPose.position

/-- getRelativePose from advanced.ts. -/
noncomputable def getRelativePose (from_ to_ : GeoPoseBQ) : ENUPose :=
  geoPoseToLocalENU to_ from_.position

/-- applyRelativePose from advanced.ts. -/
noncomputable def applyRelativePose (base : GeoPoseBQ) (relative : ENUPose) : GeoPoseBQ :=
  localENUToGeoPose relative.position relative.orientation base.position

/-- lerp from advanced.ts. -/
def lerp (a b t : ℝ) : ℝ := a + (b - a) * t

/-- slerp from advanced.ts: shorter-arc sign flip, coincident shortcut, linear
near-parallel blend, and the standard spherical weights otherwise.  The source
flips the working copy of the components when the dot product is negative but
returns the original argument qa in the coincident branch, and the flipped
copy q is used by the two remaining branches. -/
noncomputable def slerp (qa qb : Quaternion) (t : ℝ) : Quaternion :=
  let d := qa.w * qb.w + qa.x * qb.x + qa.y * qb.y + qa.z * qb.z
  let q := if d < 0 then quatNeg qa else qa
  let cosHalfTheta := if d < 0 then -d else d
  if 1.0 ≤ |cosHalfTheta| then qa
  else
    let halfTheta := Real.arccos cosHalfTheta
    let sinHalfTheta := Real.sqrt (1.0 - cosHalfTheta * cosHalfTheta)
    if |sinHalfTheta| < 0.001 then
      { x := q.x * 0.5 + qb.x * 0.5
        y := q.y * 0.5 + qb.y * 0.5
        z := q.z * 0.5 + qb.z * 0.5
        w := q.w * 0.5 + qb.w * 0.5 }
    else
      let ratioA := Real.sin ((1 - t) * halfTheta) / sinHalfTheta
      let ratioB := Real.sin (t * halfTheta) / sinHalfTheta
      { w := q.w * ratioA + qb.w * ratioB
        x := q.x * ratioA + qb.x * ratioB
        y := q.y * ratioA + qb.y * ratioB
        z := q.z * ratioA + qb.z * ratioB }

/-- interpolatePose from advanced.ts: ECEF linear interpolation of position,
slerp of the ECEF orientations, then conversion back to geodetic. -/
noncomputable def interpolatePose (from_ to_ : GeoPoseBQ) (t : ℝ) : GeoPoseBQ :=
  let fromEcef := geoPoseToECEF from_
  let toEcef := geoPoseToECEF to_
  let x := lerp fromEcef.position.x toEcef.position.x t
  let y := lerp fromEcef.position.y toEcef.position.y t
  let z := lerp fromEcef.position.z toEcef.position.z t
  let q := slerp fromEcef.orientation toEcef.orientation t
  ecefToGeoPose { x := x, y := y, z := z } q

/-- getUTMZoneEPSG from projected.ts.  Longitude is taken in ℚ so that the
zone arithmetic (a floor) stays computable; the formula is the source's
zone = floor((lon + 180) / 6) + 1 with EPSG base 32600 north / 32700 south. -/
def getUTMZoneEPSG (lon : ℚ) (northern : Bool) : String :=
  let zone : ℤ := Int.floor ((lon + 180) / 6) + 1
  let base : ℤ := if northern then 32600 else 32700
  "EPSG:" ++ toString (base + zone)

/-- Transcription of the specification text for the ecefToGeodetic inverse:
longitude atan2(y,x), initial latitude guess atan2(z, p(1-e2)) with
p = sqrt(x^2+y^2), then exactly five refinement passes, each recomputing
N = a/sqrt(1-e2 sin^2 lat), height h = p/cos(lat) - N and latitude
atan2(z, p(1 - e2 N/(N+h))).  Written from the words of the spec (its five
passes unrolled literally) to be compared with the source-derived
ecefToGeoPose. -/
noncomputable def ecefRefineDescribed (z p : ℝ) (st : ℝ × ℝ) : ℝ × ℝ :=
  let N := WGS84.a / Real.sqrt (1 - WGS84.e2 * Real.sin st.1 ^ 2)
  let h := p / Real.cos st.1 - N
  (atan2 z (p * (1 - WGS84.e2 * N / (N + h))), h)

/-- Continuation of the spec transcription: the five refinement passes,
unrolled literally, after the initial guesses. -/
noncomputable def ecefToGeodeticDescribed (x y z : ℝ) : LLH :=
  let lon := atan2 y x
  let p := Real.sqrt (x ^ 2 + y ^ 2)
  let s0 : ℝ × ℝ := (atan2 z (p * (1 - WGS84.e2)), 0)
  let s5 := ecefRefineDescribed z p (ecefRefineDescribed z p (ecefRefineDescribed z p
    (ecefRefineDescribed z p (ecefRefineDescribed z p s0))))
  { lat := radToDeg s5.1, lon := radToDeg lon, h := s5.2 }

/-- Internal state of the GeoPoseBasic wrapper class: the stored position and
quaternion fields. -/
@[ext]
structure GeoPoseBasic where
  storedPosition : LLH
  storedQuaternion : Quaternion

/-- The GeoPoseBasic constructor: copies position and quaternion verbatim. -/
def newGeoPoseBasic (pose : GeoPoseBQ) : GeoPoseBasic :=
  { storedPosition := pose.position, storedQuaternion := pose.quaternion }

/-- GeoPoseBasic.setGeoPose: replaces both stored fields verbatim. -/
def GeoPoseBasic.setGeoPose (_g : GeoPoseBasic) (pose : GeoPoseBQ) : GeoPoseBasic :=
  { storedPosition := pose.position, storedQuaternion := pose.quaternion }

/-- GeoPoseBasic.setQuaternionOrientation: stores the normalized quaternion. -/
noncomputable def GeoPoseBasic.setQuaternionOrientation
    (g : GeoPoseBasic) (x y z w : ℝ) : GeoPoseBasic :=
  { g with storedQuaternion := normalizeQuaternion { x := x, y := y, z := z, w := w } }

/-- GeoPoseBasic.setOrientation: delegates to setQuaternionOrientation. -/
noncomputable def GeoPoseBasic.setOrientation (g : GeoPoseBasic) (q : Quaternion) :
    GeoPoseBasic :=
  g.setQuaternionOrientation q.x q.y q.z q.w

/-- The qx setter: replaces the x component and re-normalizes. -/
noncomputable def GeoPoseBasic.setQx (g : GeoPoseBasic) (v : ℝ) : GeoPoseBasic :=
  { g with storedQuaternion := normalizeQuaternion { g.storedQuaternion with x := v } }

/-- The qy setter: replaces the y component and re-normalizes. -/
noncomputable def GeoPoseBasic.setQy (g : GeoPoseBasic) (v : ℝ) : GeoPoseBasic :=
  { g with storedQuaternion := normalizeQuaternion { g.storedQuaternion with y := v } }

/-- The qz setter: replaces the z component and re-normalizes. -/
noncomputable def GeoPoseBasic.setQz (g : GeoPoseBasic) (v : ℝ) : GeoPoseBasic :=
  { g with storedQuaternion := normalizeQuaternion { g.storedQuaternion with z := v } }

/-- The qw setter: replaces the w component and re-normalizes. -/
noncomputable def GeoPoseBasic.setQw (g : GeoPoseBasic) (v : ℝ) : GeoPoseBasic :=
  { g with storedQuaternion := normalizeQuaternion { g.storedQuaternion with w := v } }

/-- GeoPoseBasic.fromYPR: builds the stored state through yprToQuaternion. -/
noncomputable def GeoPoseBasicFromYPR (position : LLH) (yaw pitch roll : ℝ) :
    GeoPoseBasic :=
  newGeoPoseBasic (yprToQuaternion
    { position := position, angles := { yaw := yaw, pitch := pitch, roll := roll } })

/-- Parsed JSON values, the possible results of a successful JSON.parse. -/
inductive JValue where
  | jnull : JValue
  | jbool : Bool → JValue
  | jnum : ℝ → JValue
  | jstr : String → JValue
  | jarr : List JValue → JValue
  | jobj : List (String × JValue) → JValue

/-- JavaScript property access v.k: a field lookup that succeeds only on
objects (array index properties are irrelevant to the string keys used here). -/
def JValue.getField : JValue → String → Option JValue
  | .jobj fields, k => fields.lookup k
  | _, _ => none

/-- Two-step property access v.k1.k2 with undefined propagation. -/
def JValue.getField2 (v : JValue) (k1 k2 : String) : Option JValue :=
  (v.getField k1).bind (fun p => p.getField k2)

/-- The combined JavaScript test !v || typeof v !== 'object' (negated): truthy
and of typeof 'object', which holds exactly for objects and arrays (null has
typeof 'object' but is falsy). -/
def jsObjectTruthy : Option JValue → Bool
  | some (.jobj _) => true
  | some (.jarr _) => true
  | _ => false

/-- The JavaScript test typeof v === 'number' on a possibly-absent property. -/
def isNumValue : Option JValue → Bool
  | some (.jnum _) => true
  | _ => false

/-- Numeric property read with a default, used only under a successful guard. -/
def getNumOr (o : Option JValue) (d : ℝ) : ℝ :=
  match o with
  | some (.jnum x) => x
  | _ => d

/-- isGeoPose from GeoPoseBasic.ts: the Basic-Quaternion wire-format guard. -/
def isGeoPose (v : JValue) : Bool :=
  jsObjectTruthy (some v) &&
  jsObjectTruthy (v.getField "position") &&
  jsObjectTruthy (v.getField "quaternion") &&
  isNumValue (v.getField2 "position" "lat") &&
  isNumValue (v.getField2 "position" "lon") &&
  isNumValue (v.getField2 "position" "h") &&
  isNumValue (v.getField2 "quaternion" "x") &&
  isNumValue (v.getField2 "quaternion" "y") &&
  isNumValue (v.getField2 "quaternion" "z") &&
  isNumValue (v.getField2 "quaternion" "w")

/-- isGeoPoseBYPR from GeoPoseBasic.ts: the Basic-YPR wire-format guard. -/
def isGeoPoseBYPR (v : JValue) : Bool :=
  jsObjectTruthy (some v) &&
  jsObjectTruthy (v.getField "position") &&
  jsObjectTruthy (v.getField "angles") &&
  isNumValue (v.getField2 "position" "lat") &&
  isNumValue (v.getField2 "position" "lon") &&
  isNumValue (v.getField2 "position" "h") &&
  isNumValue (v.getField2 "angles" "yaw") &&
  isNumValue (v.getField2 "angles" "pitch") &&
  isNumValue (v.getField2 "angles" "roll")

/-- Position record extracted from a parsed value that passed a guard. -/
def extractLLH (v : JValue) : LLH :=
  { lat := getNumOr (v.getField2 "position" "lat") 0
    lon := getNumOr (v.getField2 "position" "lon") 0
    h := getNumOr (v.getField2 "position" "h") 0 }

/-- Basic-Quaternion pose extracted from a parsed value that passed isGeoPose. -/
def extractGeoPose (v : JValue) : GeoPoseBQ :=
  { position := extractLLH v
    quaternion :=
      { x := getNumOr (v.getField2 "quaternion" "x") 0
        y := getNumOr (v.getField2 "quaternion" "y") 0
        z := getNumOr (v.getField2 "quaternion" "z") 0
        w := getNumOr (v.getField2 "quaternion" "w") 0 } }

/-- GeoPoseBasic.fromObject: accept Basic-Quaternion, then Basic-YPR, else null. -/
noncomputable def fromObject (v : JValue) : Option GeoPoseBasic :=
  if isGeoPose v then some (newGeoPoseBasic (extractGeoPose v))
  else if isGeoPoseBYPR v then
    some (GeoPoseBasicFromYPR (extractLLH v)
      (getNumOr (v.getField2 "angles" "yaw") 0)
      (getNumOr (v.getField2 "angles" "pitch") 0)
      (getNumOr (v.getField2 "angles" "roll") 0))
  else none

/-- Concrete equator/prime-meridian pose with identity orientation. -/
def equatorPose : GeoPoseBQ :=
  { position := { lat := 0, lon := 0, h := 0 }, quaternion := identityQuaternion }

/-- Concrete ENU offset of one meter straight up. -/
def upOneENU : ENU := { east := 0, north := 0, up := 1 }

/-- The mode argument of GeoPoseBasic.fromJSONWithMode. -/
inductive JSONMode where
  | auto : JSONMode
  | bq : JSONMode
  | ypr : JSONMode

/-- GeoPoseBasic.fromJSONWithMode.  JSON.parse is a JavaScript built-in, not
code of this repository, so the attempted parse of the input string is taken
as the argument: none models a parse exception, which the try/catch of the
source maps to null; a some value is dispatched on the mode exactly as in the
source. -/
noncomputable def fromJSONWithMode (parsed : Option JValue) (mode : JSONMode) :
    Option GeoPoseBasic :=
  match parsed with
  | none => none
  | some v =>
    match mode with
    | .bq => if isGeoPose v then some (newGeoPoseBasic (extractGeoPose v)) else none
    | .ypr =>
        if isGeoPoseBYPR v then
          some (GeoPoseBasicFromYPR (extractLLH v)
            (getNumOr (v.getField2 "angles" "yaw") 0)
            (getNumOr (v.getField2 "angles" "pitch") 0)
            (getNumOr (v.getField2 "angles" "roll") 0))
        else none
    | .auto => fromObject v

/-- GeoPoseBasic.fromGeoPoseJSON over the parse attempt of its string input. -/
noncomputable def fromGeoPoseJSON (parsed : Option JValue) : Option GeoPoseBasic :=
  fromJSONWithMode parsed JSONMode.bq

/-- GeoPoseBasic.fromGeoPoseYPRJSON over the parse attempt of its string input. -/
noncomputable def fromGeoPoseYPRJSON (parsed : Option JValue) : Option GeoPoseBasic :=
  fromJSONWithMode parsed JSONMode.ypr

/-- GeoPoseBasic.fromJSON over the parse attempt of its string input. -/
noncomputable def fromJSON (parsed : Option JValue) : Option GeoPoseBasic :=
  fromJSONWithMode parsed JSONMode.auto

/-- The claim's reading of the required Basic-Quaternion fields: position
lat/lon/h and quaternion x/y/z/w are all present numbers. -/
def RequiredBQFields (v : JValue) : Prop :=
  (∃ n, v.getField2 "position" "lat" = some (JValue.jnum n)) ∧
  (∃ n, v.getField2 "position" "lon" = some (JValue.jnum n)) ∧
  (∃ n, v.getField2 "position" "h" = some (JValue.jnum n)) ∧
  (∃ n, v.getField2 "quaternion" "x" = some (JValue.jnum n)) ∧
  (∃ n, v.getField2 "quaternion" "y" = some (JValue.jnum n)) ∧
  (∃ n, v.getField2 "quaternion" "z" = some (JValue.jnum n)) ∧
  (∃ n, v.getField2 "quaternion" "w" = some (JValue.jnum n))

/-- The claim's reading of the required Basic-YPR fields: position lat/lon/h
and angles yaw/pitch/roll are all present numbers. -/
def RequiredYPRFields (v : JValue) : Prop :=
  (∃ n, v.getField2 "position" "lat" = some (JValue.jnum n)) ∧
  (∃ n, v.getField2 "position" "lon" = some (JValue.jnum n)) ∧
  (∃ n, v.getField2 "position" "h" = some (JValue.jnum n)) ∧
  (∃ n, v.getField2 "angles" "yaw" = some (JValue.jnum n)) ∧
  (∃ n, v.getField2 "angles" "pitch" = some (JValue.jnum n)) ∧
  (∃ n, v.getField2 "angles" "roll" = some (JValue.jnum n))

/-! Helper lemmas shared by the claim theorems. -/

/-- atan2 of 0 over a nonnegative abscissa is 0. -/
theorem atan2_zero_of_nonneg {x : ℝ} (hx : 0 ≤ x) : atan2 0 x = 0 := by
  have h : (⟨x, 0⟩ : ℂ) = (x : ℂ) := by
    apply Complex.ext <;> simp
  rw [atan2, h]
  exact Complex.arg_ofReal_of_nonneg hx

/-- degToRad 0 is 0. -/
theorem degToRad_zero : degToRad 0 = 0 := by
  rw [degToRad, zero_mul]

end GeoPoseTS

namespace GeoPoseTS

/-- C6: normalizeQuaternion divides every component of q by the magnitude
sqrt(x²+y²+z²+w²) when that magnitude is nonzero, returns exactly the identity
quaternion when the magnitude is exactly zero (never dividing by zero), and
the magnitude is zero exactly for the all-zero quaternion, so the function is
total over all numeric inputs. -/
theorem normalizeQuaternion_spec (q : Quaternion) :
    (quatMag q = 0 → normalizeQuaternion q = identityQuaternion) ∧
    (quatMag q ≠ 0 → normalizeQuaternion q =
      { x := q.x / quatMag q, y := q.y / quatMag q,
        z := q.z / quatMag q, w := q.w / quatMag q }) ∧
    (quatMag q = 0 ↔ q.x = 0 ∧ q.y = 0 ∧ q.z = 0 ∧ q.w = 0) := by
  have hq : Real.sqrt (q.x * q.x + q.y * q.y + q.z * q.z + q.w * q.w) = quatMag q := rfl
  refine ⟨fun h => ?_, fun h => ?_, ?_⟩
  · rw [normalizeQuaternion, hq, if_pos h]
  · rw [normalizeQuaternion, hq, if_neg h]
  · rw [quatMag, Real.sqrt_eq_zero']
    constructor
    · intro h
      refine ⟨?_, ?_, ?_, ?_⟩ <;> nlinarith [sq_nonneg q.x, sq_nonneg q.y, sq_nonneg q.z,
        sq_nonneg q.w]
    · rintro ⟨hx, hy, hz, hw⟩
      rw [hx, hy, hz, hw]
      norm_num

/-- C6 witness: at the concrete quaternion (0,0,0,2) the magnitude is 2 and
normalization divides by it, giving the identity; at (0,0,0,0) the magnitude
is zero and the identity is returned directly. -/
theorem normalizeQuaternion_spec_witness :
    normalizeQuaternion { x := 0, y := 0, z := 0, w := 2 } = identityQuaternion ∧
    normalizeQuaternion { x := 0, y := 0, z := 0, w := 0 } = identityQuaternion := by
  constructor
  · have hmag : quatMag { x := 0, y := 0, z := 0, w := 2 } = 2 := by
      rw [quatMag]
      rw [show ((0:ℝ) * 0 + 0 * 0 + 0 * 0 + 2 * 2) = 2 ^ 2 by norm_num]
      exact Real.sqrt_sq (by norm_num)
    have h := (normalizeQuaternion_spec { x := 0, y := 0, z := 0, w := 2 }).2.1
      (by rw [hmag]; norm_num)
    rw [h, hmag]
    rw [identityQuaternion]
    ext <;> norm_num
  · have hmag : quatMag { x := 0, y := 0, z := 0, w := 0 } = 0 := by
      rw [quatMag]
      norm_num
    exact (normalizeQuaternion_spec { x := 0, y := 0, z := 0, w := 0 }).1 hmag

/-- C10: every orientation mutator of the GeoPoseBasic wrapper (setOrientation,
setQuaternionOrientation, and the qx/qy/qz/qw component setters) stores the
normalized quaternion (identity when the magnitude is zero), and the stored
quaternion is always either unit-magnitude or the identity afterwards; the
constructor and setGeoPose instead store the given quaternion verbatim. -/
theorem geoPoseBasic_setters_normalize (g : GeoPoseBasic) (q : Quaternion)
    (x y z w v : ℝ) (pose : GeoPoseBQ) :
    (g.setOrientation q).storedQuaternion = normalizeQuaternion q ∧
    (g.setQuaternionOrientation x y z w).storedQuaternion =
      normalizeQuaternion { x := x, y := y, z := z, w := w } ∧
    (g.setQx v).storedQuaternion = normalizeQuaternion { g.storedQuaternion with x := v } ∧
    (g.setQy v).storedQuaternion = normalizeQuaternion { g.storedQuaternion with y := v } ∧
    (g.setQz v).storedQuaternion = normalizeQuaternion { g.storedQuaternion with z := v } ∧
    (g.setQw v).storedQuaternion = normalizeQuaternion { g.storedQuaternion with w := v } ∧
    (quatMag (normalizeQuaternion q) = 1 ∨ normalizeQuaternion q = identityQuaternion) ∧
    (newGeoPoseBasic pose).storedQuaternion = pose.quaternion ∧
    (g.setGeoPose pose).storedQuaternion = pose.quaternion := by
  refine ⟨?_, rfl, rfl, rfl, rfl, rfl, ?_, rfl, rfl⟩
  · rw [GeoPoseBasic.setOrientation, GeoPoseBasic.setQuaternionOrientation]
  · have hq : Real.sqrt (q.x * q.x + q.y * q.y + q.z * q.z + q.w * q.w) = quatMag q := rfl
    by_cases h : quatMag q = 0
    · right
      rw [normalizeQuaternion, hq, if_pos h]
    · left
      have hs : (0:ℝ) ≤ q.x * q.x + q.y * q.y + q.z * q.z + q.w * q.w :=
        add_nonneg (add_nonneg (add_nonneg (mul_self_nonneg _) (mul_self_nonneg _))
          (mul_self_nonneg _)) (mul_self_nonneg _)
      have hm : quatMag q * quatMag q = q.x * q.x + q.y * q.y + q.z * q.z + q.w * q.w :=
        Real.mul_self_sqrt hs
      rw [normalizeQuaternion, hq, if_neg h]
      rw [quatMag]
      have hrw : q.x / quatMag q * (q.x / quatMag q) + q.y / quatMag q * (q.y / quatMag q) +
          q.z / quatMag q * (q.z / quatMag q) + q.w / quatMag q * (q.w / quatMag q) =
          (q.x * q.x + q.y * q.y + q.z * q.z + q.w * q.w) / (quatMag q * quatMag q) := by
        field_simp
      rw [hrw, hm, div_self (fun h0 => h (by rw [quatMag, h0, Real.sqrt_zero]))]
      exact Real.sqrt_one

/-- Negating a quaternion does not change the rotation it acts as: the two
sign factors cancel in the sandwich product. -/
theorem rotateByQuaternion_quatNeg (q : Quaternion) (v : Vec3) :
    rotateByQuaternion (quatNeg q) v = rotateByQuaternion q v := by
  simp only [rotateByQuaternion, quatNeg, multiplyQuaternions, conjugateQuaternion,
    Vec3.mk.injEq]
  refine ⟨by ring, by ring, by ring⟩

/-- Reducing the transposed 3×3 matrix through the trace/diagonal branches
yields exactly the conjugate of the reduced quaternion in the positive-trace
branch and the negated conjugate in the three diagonal branches. -/
theorem matrixToQuaternion_transpose (m00 m01 m02 m10 m11 m12 m20 m21 m22 : ℝ) :
    matrixToQuaternion m00 m10 m20 m01 m11 m21 m02 m12 m22 =
      conjugateQuaternion (matrixToQuaternion m00 m01 m02 m10 m11 m12 m20 m21 m22) ∨
    matrixToQuaternion m00 m10 m20 m01 m11 m21 m02 m12 m22 =
      quatNeg (conjugateQuaternion
        (matrixToQuaternion m00 m01 m02 m10 m11 m12 m20 m21 m22)) := by
  simp only [matrixToQuaternion]
  split_ifs with h1 h2 h3
  · left
    simp only [conjugateQuaternion, Quaternion.mk.injEq]
    refine ⟨by ring_nf, by ring_nf, by ring_nf, by ring_nf⟩
  · right
    simp only [conjugateQuaternion, quatNeg, Quaternion.mk.injEq]
    refine ⟨by ring, by ring, by ring, by ring⟩
  · right
    simp only [conjugateQuaternion, quatNeg, Quaternion.mk.injEq]
    refine ⟨by ring, by ring, by ring, by ring⟩
  · right
    simp only [conjugateQuaternion, quatNeg, Quaternion.mk.injEq]
    refine ⟨by ring, by ring, by ring, by ring⟩

/-- C4: for every latitude and longitude in radians, the ECEF→ENU quaternion
built by reducing the transposed matrix (getEcefToEnuRotation) is the
conjugate of the ENU→ECEF quaternion (getEnuToEcefRotation) up to overall
sign, and acts on every vector exactly as that conjugate does: the two
construction paths yield the same rotation. -/
theorem getEcefToEnuRotation_eq_conjugate (lat lon : ℝ) :
    (getEcefToEnuRotation lat lon = conjugateQuaternion (getEnuToEcefRotation lat lon) ∨
      getEcefToEnuRotation lat lon =
        quatNeg (conjugateQuaternion (getEnuToEcefRotation lat lon))) ∧
    ∀ v : Vec3, rotateByQuaternion (getEcefToEnuRotation lat lon) v =
      rotateByQuaternion (conjugateQuaternion (getEnuToEcefRotation lat lon)) v := by
  have h1 : getEcefToEnuRotation lat lon =
      matrixToQuaternion (-Real.sin lon) (Real.cos lon) 0
        (-Real.sin lat * Real.cos lon) (-Real.sin lat * Real.sin lon) (Real.cos lat)
        (Real.cos lat * Real.cos lon) (Real.cos lat * Real.sin lon) (Real.sin lat) := rfl
  have h2 : getEnuToEcefRotation lat lon =
      matrixToQuaternion (-Real.sin lon) (-Real.sin lat * Real.cos lon)
        (Real.cos lat * Real.cos lon) (Real.cos lon) (-Real.sin lat * Real.sin lon)
        (Real.cos lat * Real.sin lon) 0 (Real.cos lat) (Real.sin lat) := rfl
  have hdisj := matrixToQuaternion_transpose (-Real.sin lon) (-Real.sin lat * Real.cos lon)
    (Real.cos lat * Real.cos lon) (Real.cos lon) (-Real.sin lat * Real.sin lon)
    (Real.cos lat * Real.sin lon) 0 (Real.cos lat) (Real.sin lat)
  rw [h1, h2]
  refine ⟨hdisj, fun v => ?_⟩
  rcases hdisj with h | h
  · rw [h]
  · rw [h, rotateByQuaternion_quatNeg]

/-- One refinement pass of the source loop equals one refinement pass as the
spec describes it: the only differences are notational (sin² and the
association of the fraction). -/
theorem ecefStep_eq_described (z p : ℝ) (st : ℝ × ℝ) :
    ecefStep z p st = ecefRefineDescribed z p st := by
  have harg : (1 - WGS84.e2 * Real.sin st.1 * Real.sin st.1) =
      (1 - WGS84.e2 * Real.sin st.1 ^ 2) := by
    ring
  simp only [ecefStep, ecefRefineDescribed, harg, Prod.mk.injEq]
  exact ⟨congrArg (atan2 z) (by ring), trivial⟩

/-- C5: ecefToGeoPose computes its geodetic position exactly as the spec
describes: longitude atan2(y,x), initial latitude guess atan2(z, p(1−e2))
with p = sqrt(x²+y²), and exactly five fixed refinement passes recomputing
N, the height p/cos(lat) − N, and the latitude atan2(z, p(1 − e2·N/(N+h))). -/
theorem ecefToGeoPose_position_described (ecef : ECEF) (orientation : Quaternion) :
    (ecefToGeoPose ecef orientation).position =
      ecefToGeodeticDescribed ecef.x ecef.y ecef.z := by
  have hp : Real.sqrt (ecef.x ^ 2 + ecef.y ^ 2) =
      Real.sqrt (ecef.x * ecef.x + ecef.y * ecef.y) := by
    rw [pow_two, pow_two]
  have hiter : ∀ st : ℝ × ℝ, ecefIterate ecef.z
      (Real.sqrt (ecef.x * ecef.x + ecef.y * ecef.y)) 5 st =
      ecefStep ecef.z (Real.sqrt (ecef.x * ecef.x + ecef.y * ecef.y))
        (ecefStep ecef.z (Real.sqrt (ecef.x * ecef.x + ecef.y * ecef.y))
          (ecefStep ecef.z (Real.sqrt (ecef.x * ecef.x + ecef.y * ecef.y))
            (ecefStep ecef.z (Real.sqrt (ecef.x * ecef.x + ecef.y * ecef.y))
              (ecefStep ecef.z (Real.sqrt (ecef.x * ecef.x + ecef.y * ecef.y)) st)))) :=
    fun st => rfl
  simp only [ecefToGeoPose, ecefRecoveredState, ecefToGeodeticDescribed, hp, hiter,
    ecefStep_eq_described]

/-- C8: getUTMZoneEPSG returns the string EPSG: followed by the base 32600
(northern) or 32700 (southern) plus the zone floor((lon+180)/6)+1, and in
particular maps longitude 151.2093 in the southern hemisphere to EPSG:32756. -/
theorem getUTMZoneEPSG_spec :
    (∀ (lon : ℚ) (northern : Bool), getUTMZoneEPSG lon northern =
      "EPSG:" ++ toString ((if northern then (32600 : ℤ) else 32700) +
        (Int.floor ((lon + 180) / 6) + 1))) ∧
    getUTMZoneEPSG (151.2093 : ℚ) false = "EPSG:32756" := by
  constructor
  · intro lon northern
    rfl
  · have hz : Int.floor (((151.2093 : ℚ) + 180) / 6) = 55 := by norm_num
    have h1 : getUTMZoneEPSG (151.2093 : ℚ) false =
        "EPSG:" ++ toString ((32700 : ℤ) + (Int.floor (((151.2093 : ℚ) + 180) / 6) + 1)) :=
      rfl
    rw [h1, hz]
    decide

/-- Multiplying by the identity quaternion on the right changes nothing. -/
theorem multiplyQuaternions_identity (q : Quaternion) :
    multiplyQuaternions q identityQuaternion = q := by
  simp only [multiplyQuaternions, identityQuaternion]
  ext <;> dsimp <;> ring

/-- The ENU→ECEF rotation quaternion at the equator and prime meridian,
evaluated through the last diagonal branch of matrixToQuaternion. -/
theorem enuToEcef_zero :
    getEnuToEcefRotation 0 0 = { x := 1/2, y := 1/2, z := 1/2, w := 1/2 } := by
  rw [getEnuToEcefRotation]
  simp only [Real.sin_zero, Real.cos_zero]
  rw [matrixToQuaternion]
  rw [if_neg (by norm_num), if_neg (by norm_num), if_neg (by norm_num)]
  norm_num [Real.sqrt_one, Quaternion.mk.injEq]

/-- The ECEF→ENU rotation quaternion at the equator and prime meridian. -/
theorem ecefToEnu_zero :
    getEcefToEnuRotation 0 0 = { x := 1/2, y := 1/2, z := 1/2, w := -(1/2) } := by
  rw [getEcefToEnuRotation]
  simp only [Real.sin_zero, Real.cos_zero]
  rw [matrixToQuaternion]
  rw [if_neg (by norm_num), if_neg (by norm_num), if_neg (by norm_num)]
  norm_num [Real.sqrt_one, Quaternion.mk.injEq]

/-- Forward transform at the equator/prime meridian: ECEF (a, 0, 0). -/
theorem geoPoseToECEF_equator_position :
    (geoPoseToECEF equatorPose).position = { x := WGS84.a, y := 0, z := 0 } := by
  simp only [equatorPose, geoPoseToECEF, degToRad_zero, Real.sin_zero, Real.cos_zero]
  norm_num [Real.sqrt_one, ECEF.mk.injEq]

/-- The target ECEF point of a one-meter up-translation at the equator. -/
theorem localENUTarget_up_equator :
    localENUTargetECEF upOneENU equatorPose.position =
      { x := WGS84.a + 1, y := 0, z := 0 } := by
  have ho : (geoPoseToECEF
      { position := equatorPose.position, quaternion := identityQuaternion }).position =
      { x := WGS84.a, y := 0, z := 0 } := geoPoseToECEF_equator_position
  simp only [localENUTargetECEF, ho]
  have hlat : equatorPose.position.lat * Real.pi / 180 = 0 := by
    simp [equatorPose]
  have hlon : equatorPose.position.lon * Real.pi / 180 = 0 := by
    simp [equatorPose]
  rw [hlat, hlon]
  simp only [Real.sin_zero, Real.cos_zero, upOneENU]
  simp only [ECEF.mk.injEq]
  refine ⟨by ring, by ring, by ring⟩

/-- One refinement pass of the inverse loop at the on-axis point (a+1, 0, 0):
the state settles at latitude 0, height 1. -/
theorem ecefStep_equator (t : ℝ) :
    ecefStep 0 (WGS84.a + 1) (0, t) = (0, 1) := by
  simp only [ecefStep, Real.sin_zero, Real.cos_zero, mul_zero, zero_mul, sub_zero,
    Real.sqrt_one, div_one]
  rw [Prod.mk.injEq]
  constructor
  · rw [atan2_zero_of_nonneg (by norm_num [WGS84.a, WGS84.e2])]
  · norm_num

/-- Five passes of the inverse loop at (a+1, 0, 0). -/
theorem ecefIterate_equator (t : ℝ) :
    ecefIterate 0 (WGS84.a + 1) 5 (0, t) = (0, 1) := by
  have hun : ecefIterate 0 (WGS84.a + 1) 5 (0, t) =
      ecefStep 0 (WGS84.a + 1) (ecefStep 0 (WGS84.a + 1) (ecefStep 0 (WGS84.a + 1)
        (ecefStep 0 (WGS84.a + 1) (ecefStep 0 (WGS84.a + 1) (0, t))))) := rfl
  rw [hun, ecefStep_equator t, ecefStep_equator 1, ecefStep_equator 1,
    ecefStep_equator 1, ecefStep_equator 1]

/-- The recovered state of the inverse transform at (a+1, 0, 0): latitude 0,
height exactly 1. -/
theorem ecefRecoveredState_equator :
    ecefRecoveredState { x := WGS84.a + 1, y := 0, z := 0 } = (0, 1) := by
  have hp : Real.sqrt ((WGS84.a + 1) * (WGS84.a + 1) + 0 * 0) = WGS84.a + 1 := by
    rw [show (WGS84.a + 1) * (WGS84.a + 1) + 0 * 0 = (WGS84.a + 1) ^ 2 by ring]
    exact Real.sqrt_sq (by norm_num [WGS84.a])
  have h0 : ecefRecoveredState { x := WGS84.a + 1, y := 0, z := 0 } =
      ecefIterate 0 (Real.sqrt ((WGS84.a + 1) * (WGS84.a + 1) + 0 * 0)) 5
        (atan2 0 (Real.sqrt ((WGS84.a + 1) * (WGS84.a + 1) + 0 * 0) * (1 - WGS84.e2)),
          0) := rfl
  rw [h0, hp, atan2_zero_of_nonneg (by norm_num [WGS84.a, WGS84.e2])]
  exact ecefIterate_equator 0

/-- The orientation part of ecefToGeoPose, written out. -/
theorem ecefToGeoPose_quaternion (e : ECEF) (q : Quaternion) :
    (ecefToGeoPose e q).quaternion =
      multiplyQuaternions
        (getEcefToEnuRotation (ecefRecoveredState e).1 (atan2 e.y e.x)) q := rfl

/-- C2 (amended): translateGeoPose pose enu is localENUToGeoPose with the
pose's own position as tangent-plane origin, and the orientation of the result
is the input orientation re-based through ECEF — multiplied by the ENU→ECEF
rotation at the pose's position and then by the ECEF→ENU rotation at the
re-derived position — rather than the unchanged input quaternion. -/
theorem translateGeoPose_spec (pose : GeoPoseBQ) (enu : ENU) :
    translateGeoPose pose enu = localENUToGeoPose enu pose.quaternion pose.position ∧
    (translateGeoPose pose enu).quaternion =
      multiplyQuaternions
        (getEcefToEnuRotation
          (ecefRecoveredState (localENUTargetECEF enu pose.position)).1
          (atan2 (localENUTargetECEF enu pose.position).y
            (localENUTargetECEF enu pose.position).x))
        (multiplyQuaternions
          (getEnuToEcefRotation (pose.position.lat * Real.pi / 180)
            (pose.position.lon * Real.pi / 180))
          pose.quaternion) :=
  ⟨rfl, rfl⟩

/-- C2 counterexample: translating the identity-oriented equator pose one
meter straight up yields the quaternion (0, 0, 0, −1), which is not the input
quaternion (0, 0, 0, 1) — orientation is not preserved exactly. -/
theorem translateGeoPose_orientation_not_exact :
    (translateGeoPose equatorPose upOneENU).quaternion =
      { x := 0, y := 0, z := 0, w := -1 } ∧
    (translateGeoPose equatorPose upOneENU).quaternion ≠ equatorPose.quaternion := by
  have hq : (translateGeoPose equatorPose upOneENU).quaternion =
      multiplyQuaternions
        (getEcefToEnuRotation
          (ecefRecoveredState (localENUTargetECEF upOneENU equatorPose.position)).1
          (atan2 (localENUTargetECEF upOneENU equatorPose.position).y
            (localENUTargetECEF upOneENU equatorPose.position).x))
        (multiplyQuaternions
          (getEnuToEcefRotation (equatorPose.position.lat * Real.pi / 180)
            (equatorPose.position.lon * Real.pi / 180))
          equatorPose.quaternion) := rfl
  have hmain : (translateGeoPose equatorPose upOneENU).quaternion =
      { x := 0, y := 0, z := 0, w := -1 } := by
    rw [hq, localENUTarget_up_equator, ecefRecoveredState_equator]
    have hlat : equatorPose.position.lat * Real.pi / 180 = 0 := by
      simp [equatorPose]
    have hlon : equatorPose.position.lon * Real.pi / 180 = 0 := by
      simp [equatorPose]
    rw [hlat, hlon]
    have hy : ({ x := WGS84.a + 1, y := 0, z := 0 } : ECEF).y = 0 := rfl
    have hx : ({ x := WGS84.a + 1, y := 0, z := 0 } : ECEF).x = WGS84.a + 1 := rfl
    rw [hy, hx, atan2_zero_of_nonneg (by norm_num [WGS84.a])]
    have hfst : ((0:ℝ), (1:ℝ)).1 = 0 := rfl
    rw [hfst, ecefToEnu_zero, enuToEcef_zero]
    have hid : equatorPose.quaternion = identityQuaternion := rfl
    rw [hid, multiplyQuaternions_identity]
    simp only [multiplyQuaternions, Quaternion.mk.injEq]
    norm_num
  refine ⟨hmain, ?_⟩
  rw [hmain]
  intro hcontra
  have hw := congrArg Quaternion.w hcontra
  simp only [equatorPose, identityQuaternion] at hw
  norm_num at hw

/-- A present-number test on a two-step property access succeeds exactly when
the field path ends at a number. -/
theorem isNumValue_getField2_iff (v : JValue) (k1 k2 : String) :
    isNumValue (v.getField2 k1 k2) = true ↔
      ∃ n, v.getField2 k1 k2 = some (JValue.jnum n) := by
  rcases ho : v.getField2 k1 k2 with _ | w
  · simp [isNumValue]
  · cases w <;> simp [isNumValue]

/-- If a two-step property access reaches a number, the first step reached an
object, so both JavaScript object-truthiness guards on the path hold. -/
theorem getField2_num_truthy (v : JValue) (k1 k2 : String)
    (h : ∃ n, v.getField2 k1 k2 = some (JValue.jnum n)) :
    jsObjectTruthy (some v) = true ∧ jsObjectTruthy (v.getField k1) = true := by
  obtain ⟨n, hn⟩ := h
  rw [JValue.getField2] at hn
  rcases h1 : v.getField k1 with _ | p
  · rw [h1] at hn
    simp at hn
  · rw [h1] at hn
    simp only [Option.some_bind] at hn
    have hv : jsObjectTruthy (some v) = true := by
      cases v with
      | jobj fields => rfl
      | jnull => simp [JValue.getField] at h1
      | jbool b => simp [JValue.getField] at h1
      | jnum m => simp [JValue.getField] at h1
      | jstr s => simp [JValue.getField] at h1
      | jarr xs => simp [JValue.getField] at h1
    have hpc : jsObjectTruthy (some p) = true := by
      cases p with
      | jobj fields => rfl
      | jnull => simp [JValue.getField] at hn
      | jbool b => simp [JValue.getField] at hn
      | jnum m => simp [JValue.getField] at hn
      | jstr s => simp [JValue.getField] at hn
      | jarr xs => simp [JValue.getField] at hn
    exact ⟨hv, hpc⟩

/-- The isGeoPose guard of the source holds exactly when the required
Basic-Quaternion numeric fields are all present numbers. -/
theorem isGeoPose_iff_required (v : JValue) :
    isGeoPose v = true ↔ RequiredBQFields v := by
  rw [isGeoPose, RequiredBQFields]
  simp only [Bool.and_eq_true, isNumValue_getField2_iff]
  constructor
  · rintro ⟨⟨⟨⟨⟨⟨⟨⟨⟨-, -⟩, -⟩, h1⟩, h2⟩, h3⟩, h4⟩, h5⟩, h6⟩, h7⟩
    exact ⟨h1, h2, h3, h4, h5, h6, h7⟩
  · rintro ⟨h1, h2, h3, h4, h5, h6, h7⟩
    obtain ⟨hv, hpos⟩ := getField2_num_truthy v "position" "lat" h1
    obtain ⟨-, hquat⟩ := getField2_num_truthy v "quaternion" "x" h4
    exact ⟨⟨⟨⟨⟨⟨⟨⟨⟨hv, hpos⟩, hquat⟩, h1⟩, h2⟩, h3⟩, h4⟩, h5⟩, h6⟩, h7⟩

/-- The isGeoPoseBYPR guard of the source holds exactly when the required
Basic-YPR numeric fields are all present numbers. -/
theorem isGeoPoseBYPR_iff_required (v : JValue) :
    isGeoPoseBYPR v = true ↔ RequiredYPRFields v := by
  rw [isGeoPoseBYPR, RequiredYPRFields]
  simp only [Bool.and_eq_true, isNumValue_getField2_iff]
  constructor
  · rintro ⟨⟨⟨⟨⟨⟨⟨⟨-, -⟩, -⟩, h1⟩, h2⟩, h3⟩, h4⟩, h5⟩, h6⟩
    exact ⟨h1, h2, h3, h4, h5, h6⟩
  · rintro ⟨h1, h2, h3, h4, h5, h6⟩
    obtain ⟨hv, hpos⟩ := getField2_num_truthy v "position" "lat" h1
    obtain ⟨-, hang⟩ := getField2_num_truthy v "angles" "yaw" h4
    exact ⟨⟨⟨⟨⟨⟨⟨⟨hv, hpos⟩, hang⟩, h1⟩, h2⟩, h3⟩, h4⟩, h5⟩, h6⟩

/-- C9: fromGeoPoseJSON, fromGeoPoseYPRJSON and fromJSON are total (the parse
attempt is an explicit argument, the source's try/catch turning a parse
failure into null) and return null exactly when the parse failed or the
required numeric fields of the respective wire format are missing or of the
wrong kind; equivalently, they return a constructed pose exactly when all
required numeric fields are present numbers. -/
theorem fromJSON_fails_closed (parsed : Option JValue) :
    (fromGeoPoseJSON parsed = none ↔
      ¬ ∃ v, parsed = some v ∧ RequiredBQFields v) ∧
    (fromGeoPoseYPRJSON parsed = none ↔
      ¬ ∃ v, parsed = some v ∧ RequiredYPRFields v) ∧
    (fromJSON parsed = none ↔
      ¬ ∃ v, parsed = some v ∧ (RequiredBQFields v ∨ RequiredYPRFields v)) := by
  rcases parsed with _ | v
  · refine ⟨?_, ?_, ?_⟩ <;> simp [fromGeoPoseJSON, fromGeoPoseYPRJSON, fromJSON,
      fromJSONWithMode]
  · refine ⟨?_, ?_, ?_⟩
    · rw [fromGeoPoseJSON, fromJSONWithMode]
      by_cases h : isGeoPose v
      · rw [if_pos h]
        simp [isGeoPose_iff_required v |>.mp h]
      · rw [if_neg h]
        simp only [true_iff]
        rintro ⟨w, hw, hreq⟩
        obtain rfl : v = w := by injection hw
        exact h ((isGeoPose_iff_required v).mpr hreq)
    · rw [fromGeoPoseYPRJSON, fromJSONWithMode]
      by_cases h : isGeoPoseBYPR v
      · rw [if_pos h]
        simp [isGeoPoseBYPR_iff_required v |>.mp h]
      · rw [if_neg h]
        simp only [true_iff]
        rintro ⟨w, hw, hreq⟩
        obtain rfl : v = w := by injection hw
        exact h ((isGeoPoseBYPR_iff_required v).mpr hreq)
    · rw [fromJSON, fromJSONWithMode, fromObject]
      by_cases h1 : isGeoPose v
      · rw [if_pos h1]
        simp [isGeoPose_iff_required v |>.mp h1]
      · rw [if_neg h1]
        by_cases h2 : isGeoPoseBYPR v
        · rw [if_pos h2]
          simp [isGeoPoseBYPR_iff_required v |>.mp h2]
        · rw [if_neg h2]
          simp only [true_iff]
          rintro ⟨w, hw, hreq⟩
          obtain rfl : v = w := by injection hw
          rcases hreq with hreq | hreq
          · exact h1 ((isGeoPose_iff_required v).mpr hreq)
          · exact h2 ((isGeoPoseBYPR_iff_required v).mpr hreq)

/-- C7: in quaternionToYPR, whenever the pitch argument sinp = 2(wy − zx) has
absolute value at least 1, the returned pitch is sign(sinp)·90 degrees rather
than an asin of an out-of-domain value, and for every input quaternion the
returned pitch lies in [−90, 90] degrees. -/
theorem quaternionToYPR_pitch_spec (g : GeoPoseBQ) :
    (1 ≤ |2 * (g.quaternion.w * g.quaternion.y - g.quaternion.z * g.quaternion.x)| →
      (quaternionToYPR g).angles.pitch =
        Real.sign (2 * (g.quaternion.w * g.quaternion.y - g.quaternion.z * g.quaternion.x))
          * 90) ∧
    -90 ≤ (quaternionToYPR g).angles.pitch ∧ (quaternionToYPR g).angles.pitch ≤ 90 := by
  have hpi : (0:ℝ) < Real.pi := Real.pi_pos
  set sinp := 2 * (g.quaternion.w * g.quaternion.y - g.quaternion.z * g.quaternion.x) with hsinp
  have hpitch : (quaternionToYPR g).angles.pitch =
      radToDeg (if 1 ≤ |sinp| then Real.sign sinp * (Real.pi / 2) else Real.arcsin sinp) :=
    rfl
  constructor
  · intro h
    rw [hpitch, if_pos h, radToDeg]
    have : Real.sign sinp * (Real.pi / 2) * (180 / Real.pi) =
        Real.sign sinp * ((Real.pi / 2) * (180 / Real.pi)) := by ring
    rw [this]
    have h90 : Real.pi / 2 * (180 / Real.pi) = 90 := by
      field_simp
      ring
    rw [h90]
  · rw [hpitch]
    by_cases h : 1 ≤ |sinp|
    · rw [if_pos h, radToDeg]
      have hsign : Real.sign sinp = -1 ∨ Real.sign sinp = 0 ∨ Real.sign sinp = 1 := by
        rcases lt_trichotomy sinp 0 with hc | hc | hc
        · exact Or.inl (Real.sign_of_neg hc)
        · exact Or.inr (Or.inl (by rw [hc, Real.sign_zero]))
        · exact Or.inr (Or.inr (Real.sign_of_pos hc))
      have h90 : Real.pi / 2 * (180 / Real.pi) = 90 := by
        field_simp
        ring
      rcases hsign with hs | hs | hs <;>
        rw [hs] <;> constructor <;> nlinarith
    · rw [if_neg h, radToDeg]
      have hle : Real.arcsin sinp ≤ Real.pi / 2 := Real.arcsin_le_pi_div_two sinp
      have hge : -(Real.pi / 2) ≤ Real.arcsin sinp := Real.neg_pi_div_two_le_arcsin sinp
      have hpos : (0:ℝ) < 180 / Real.pi := by positivity
      constructor
      · have := mul_le_mul_of_nonneg_right hge hpos.le
        calc (-90 : ℝ) = -(Real.pi / 2) * (180 / Real.pi) := by
              field_simp
              ring
            _ ≤ Real.arcsin sinp * (180 / Real.pi) := this
      · have := mul_le_mul_of_nonneg_right hle hpos.le
        calc Real.arcsin sinp * (180 / Real.pi) ≤ Real.pi / 2 * (180 / Real.pi) := this
          _ = 90 := by field_simp; ring

/-- C7 witness: at the quaternion (0,1,0,1) the pitch argument is 2, the
gimbal-lock branch fires, and the returned pitch is sign(2)·90 = 90 degrees,
inside [−90, 90]. -/
theorem quaternionToYPR_pitch_spec_witness :
    (1 ≤ |2 * ((1:ℝ) * 1 - 0 * 0)| ∧
      (quaternionToYPR
          { position := { lat := 0, lon := 0, h := 0 },
            quaternion := { x := 0, y := 1, z := 0, w := 1 } }).angles.pitch =
        Real.sign (2 * ((1:ℝ) * 1 - 0 * 0)) * 90) ∧
    -90 ≤ (quaternionToYPR
          { position := { lat := 0, lon := 0, h := 0 },
            quaternion := { x := 0, y := 1, z := 0, w := 1 } }).angles.pitch := by
  refine ⟨⟨by norm_num, ?_⟩, ?_⟩
  · exact (quaternionToYPR_pitch_spec
      { position := { lat := 0, lon := 0, h := 0 },
        quaternion := { x := 0, y := 1, z := 0, w := 1 } }).1 (by norm_num)
  · exact (quaternionToYPR_pitch_spec
      { position := { lat := 0, lon := 0, h := 0 },
        quaternion := { x := 0, y := 1, z := 0, w := 1 } }).2.1

end GeoPoseTS
